import Mathlib

/-!
Shallow embedding of the request-distribution and adaptive load-balancing
engine (`src/backend/alertflow-svc/src/core/distribution.py`).

Modelling conventions:
- Python floats are modelled as exact rationals (`ℚ`).
- Wall-clock time (`time.time()`) is passed explicitly as a `now : ℚ`
  parameter; a single instant is used for one whole operation (the source
  samples the clock several times inside one call, at most a few
  microseconds apart).
- Python dicts are modelled as association lists in insertion order
  (Python dicts iterate in insertion order, which matters for the
  first-wins tie-break of `min`).
- The source's `RouteResult.node` field is an aliased reference to the
  registry's `ServerNode` object; mutations through the registry are seen
  through the cache and vice versa.  We model the field by `node_id` and
  re-look the node up in the registry; a cached route whose node has been
  unregistered (a stale reference kept alive only by the cache in the
  source) is treated as a cache miss.
- `get_nodes_status` emits display-rounded values (`round(x, k)`); the
  rounding is presentation-only and omitted here, the snapshot carries the
  exact values.
- Stateful methods become functions `State → result × State`.
-/

namespace AlertFlow

/-- Statut d'un noeud serveur (`NodeStatus`). -/
inductive NodeStatus where
  | HEALTHY
  | DEGRADED
  | UNHEALTHY
  | CIRCUIT_OPEN
  deriving DecidableEq

/-- Types de requetes pour le routing (`RequestType`). -/
inductive RequestType where
  | IMAGE_ANALYSIS
  | REAL_TIME_DETECTION
  | BATCH_PROCESSING
  | DATABASE_QUERY
  | GEO_SPATIAL
  | MACHINE_LEARNING
  deriving DecidableEq

/-- Timeouts adaptatifs par priorite (`PRIORITY_TIMEOUTS`). -/
def PRIORITY_TIMEOUTS : List (String × ℚ) :=
  [("CRITICAL", 5), ("HIGH", 10), ("MEDIUM", 30), ("LOW", 60)]

/-- Retry configuration: `MAX_RETRIES`. -/
def MAX_RETRIES : Nat := 3

/-- Retry configuration: `RETRY_BASE_DELAY` (seconds). -/
def RETRY_BASE_DELAY : ℚ := 1

/-- Retry configuration: `RETRY_MAX_DELAY` (seconds). -/
def RETRY_MAX_DELAY : ℚ := 30

/-- Circuit breaker: `CIRCUIT_FAILURE_THRESHOLD`. -/
def CIRCUIT_FAILURE_THRESHOLD : Nat := 5

/-- Circuit breaker: `CIRCUIT_RECOVERY_TIMEOUT` (seconds). -/
def CIRCUIT_RECOVERY_TIMEOUT : ℚ := 60

/-- Noeud serveur avec metriques de charge (`ServerNode` dataclass).
Field defaults mirror the dataclass defaults. -/
structure ServerNode where
  node_id : String
  host : String
  port : Nat
  service_name : String
  status : NodeStatus := .HEALTHY
  cpu_usage : ℚ := 0
  memory_usage : ℚ := 0
  active_connections : Nat := 0
  max_connections : Nat := 100
  avg_response_time_ms : ℚ := 0
  request_count : Nat := 0
  error_count : Nat := 0
  last_health_check : ℚ := 0
  capabilities : List String := []
  weight : ℚ := 1
  consecutive_failures : Nat := 0
  circuit_opened_at : ℚ := 0
  deriving DecidableEq

/-- Score de charge (`ServerNode.load_score`), 0-1, plus bas = moins charge. -/
def ServerNode.load_score (n : ServerNode) : ℚ :=
  let cpu_factor := n.cpu_usage / 100
  let mem_factor := n.memory_usage / 100
  let conn_factor := (n.active_connections : ℚ) / (max n.max_connections 1 : Nat)
  cpu_factor * 0.4 + mem_factor * 0.3 + conn_factor * 0.3

/-- Verifier si le noeud est disponible (`ServerNode.is_available`).  The
source is a property with a transition side effect: it may move a
`CIRCUIT_OPEN` node whose recovery timeout elapsed to `DEGRADED`; we return
the answer together with the updated node. -/
def ServerNode.is_available (now : ℚ) (n : ServerNode) : Bool × ServerNode :=
  if n.status = .CIRCUIT_OPEN then
    if now - n.circuit_opened_at > CIRCUIT_RECOVERY_TIMEOUT then
      (true, { n with status := .DEGRADED, consecutive_failures := 0 })
    else
      (false, n)
  else
    (n.status = .HEALTHY ∨ n.status = .DEGRADED, n)

/-- Taux d'erreur (`ServerNode.error_rate`). -/
def ServerNode.error_rate (n : ServerNode) : ℚ :=
  if n.request_count = 0 then 0
  else (n.error_count : ℚ) / (n.request_count : ℚ)

/-- Resultat du routing d'une requete (`RouteResult` dataclass); the node
reference is modelled by its id (see the aliasing note in the header). -/
structure RouteResult where
  node_id : String
  request_type : RequestType
  priority : String
  timeout : ℚ
  attempt : Nat := 1
  cached : Bool := false
  deriving DecidableEq

/-- Python `dict[k] = v`: replace in place (keeping insertion order) when
the key is present, append otherwise. -/
def dictInsert {α β : Type} [BEq α] (d : List (α × β)) (k : α) (v : β) :
    List (α × β) :=
  if d.any (fun p => p.1 == k) then
    d.map (fun p => if p.1 == k then (k, v) else p)
  else
    d ++ [(k, v)]

/-- State of `DistributionSystem`: registry (dict values in insertion
order), route cache, cache timestamps and the request-type routing table
(`_service_routing`, initialised in `__init__`, held as instance state). -/
structure DistributionSystem where
  nodes : List ServerNode
  route_cache : List ((RequestType × String) × RouteResult)
  cache_timestamps : List ((RequestType × String) × ℚ)
  service_routing : List (RequestType × List String)
  deriving DecidableEq

/-- Cache TTL (`self._cache_ttl = 30.0`, never mutated). -/
def cache_ttl : ℚ := 30

/-- Initial routing table from `DistributionSystem.__init__`. -/
def default_service_routing : List (RequestType × List String) :=
  [(.IMAGE_ANALYSIS, ["minespotai-svc"]),
   (.REAL_TIME_DETECTION, ["minespotai-svc"]),
   (.BATCH_PROCESSING, ["minespotai-svc", "pipeline-svc"]),
   (.DATABASE_QUERY, ["api-gateway"]),
   (.GEO_SPATIAL, ["minespotai-svc", "api-gateway"]),
   (.MACHINE_LEARNING, ["minespotai-svc"])]

/-- Fresh `DistributionSystem()` state. -/
def DistributionSystem.init : DistributionSystem :=
  { nodes := [], route_cache := [], cache_timestamps := [],
    service_routing := default_service_routing }

/-- Update every registry entry with the given id (a well-formed registry
has at most one). -/
def updateNode (nodes : List ServerNode) (id : String)
    (f : ServerNode → ServerNode) : List ServerNode :=
  nodes.map (fun n => if n.node_id == id then f n else n)

/-- Registry lookup `self._nodes.get(node_id)`. -/
def DistributionSystem.findNode (s : DistributionSystem) (id : String) :
    Option ServerNode :=
  s.nodes.find? (fun n => n.node_id == id)

/-- Enregistrer un noeud serveur (`register_node`): dict assignment keyed
by `node.node_id`. -/
def DistributionSystem.register_node (s : DistributionSystem)
    (node : ServerNode) : DistributionSystem :=
  { s with nodes :=
      if s.nodes.any (fun n => n.node_id == node.node_id) then
        s.nodes.map (fun n => if n.node_id == node.node_id then node else n)
      else
        s.nodes ++ [node] }

/-- Retirer un noeud serveur (`unregister_node`). -/
def DistributionSystem.unregister_node (s : DistributionSystem)
    (id : String) : DistributionSystem :=
  { s with nodes := s.nodes.filter (fun n => !(n.node_id == id)) }

/-- Python `min(available_nodes, key=load_score)`: first minimal element
wins ties (left fold replacing only on strictly smaller score). -/
def minByLoad : List ServerNode → Option ServerNode
  | [] => none
  | n :: ns =>
      some (ns.foldl
        (fun acc m => if m.load_score < acc.load_score then m else acc) n)

/-- Timeout adaptatif par priorite: `PRIORITY_TIMEOUTS.get(priority, 30.0)`. -/
def priorityTimeout (priority : String) : ℚ :=
  match PRIORITY_TIMEOUTS.lookup priority with
  | some t => t
  | none => 30

/-- Fresh-routing part of `route_request` (everything after the cache
check): pool lookup, availability filter (the comprehension evaluates
`is_available` — and hence its recovery side effect — on every registered
node), min-load selection, and caching of the new result. -/
def DistributionSystem.routeFresh (s : DistributionSystem)
    (request_type : RequestType) (priority : String) (now : ℚ) :
    Option RouteResult × DistributionSystem :=
  let compatible_services :=
    match s.service_routing.lookup request_type with
    | some l => l
    | none => []
  if compatible_services.isEmpty then
    (none, s)
  else
    let stepped := s.nodes.map (fun n => n.is_available now)
    let s1 := { s with nodes := stepped.map Prod.snd }
    let available_nodes := (stepped.filter
      (fun p => p.1 && compatible_services.contains p.2.service_name)).map
        Prod.snd
    match minByLoad available_nodes with
    | none => (none, s1)
    | some best_node =>
        let result : RouteResult :=
          { node_id := best_node.node_id, request_type := request_type,
            priority := priority, timeout := priorityTimeout priority,
            attempt := 1, cached := false }
        let key := (request_type, priority)
        (some result,
          { s1 with
            route_cache := dictInsert s1.route_cache key result,
            cache_timestamps := dictInsert s1.cache_timestamps key now })

/-- Router une requete vers le meilleur noeud disponible
(`DistributionSystem.route_request`).  The cache-hit path marks the cached
entry `cached := true` in place (the source mutates the shared
`RouteResult` object) and re-checks the cached node's availability, whose
recovery side effect persists even when the check fails and routing falls
through to the fresh path. -/
def DistributionSystem.route_request (s : DistributionSystem)
    (request_type : RequestType) (priority : String) (now : ℚ) :
    Option RouteResult × DistributionSystem :=
  let cache_key := (request_type, priority)
  match s.route_cache.lookup cache_key with
  | some cached_result =>
      let ts := (s.cache_timestamps.lookup cache_key).getD 0
      if now - ts < cache_ttl then
        match s.findNode cached_result.node_id with
        | some node =>
            let res := node.is_available now
            let s1 := { s with
              nodes := updateNode s.nodes node.node_id (fun _ => res.2) }
            if res.1 then
              let result := { cached_result with cached := true }
              (some result,
                { s1 with
                  route_cache := dictInsert s1.route_cache cache_key result })
            else
              s1.routeFresh request_type priority now
        | none => s.routeFresh request_type priority now
      else
        s.routeFresh request_type priority now
  | none => s.routeFresh request_type priority now

/-- Rapporter le succes d'une requete (`report_success`): unknown node is
a silent no-op; otherwise bump `request_count`, reset
`consecutive_failures`, EMA-blend the response time with α = 0.3, and
promote `DEGRADED` back to `HEALTHY`. -/
def DistributionSystem.report_success (s : DistributionSystem)
    (node_id : String) (response_time_ms : ℚ) : DistributionSystem :=
  match s.findNode node_id with
  | none => s
  | some _ =>
      { s with nodes := updateNode s.nodes node_id (fun node =>
          let node := { node with
            request_count := node.request_count + 1,
            consecutive_failures := 0 }
          let alpha : ℚ := 0.3
          let node := { node with avg_response_time_ms :=
            alpha * response_time_ms
              + (1 - alpha) * node.avg_response_time_ms }
          if node.status = .DEGRADED then { node with status := .HEALTHY }
          else node) }

/-- Rapporter l'echec d'une requete (`report_failure`): unknown node is a
silent no-op; otherwise bump counters and open the circuit when
`consecutive_failures` reaches the threshold. -/
def DistributionSystem.report_failure (s : DistributionSystem)
    (node_id : String) (now : ℚ) : DistributionSystem :=
  match s.findNode node_id with
  | none => s
  | some _ =>
      { s with nodes := updateNode s.nodes node_id (fun node =>
          let node := { node with
            request_count := node.request_count + 1,
            error_count := node.error_count + 1,
            consecutive_failures := node.consecutive_failures + 1 }
          if CIRCUIT_FAILURE_THRESHOLD ≤ node.consecutive_failures then
            { node with status := .CIRCUIT_OPEN, circuit_opened_at := now }
          else node) }

/-- One entry of the `get_nodes_status` snapshot (dict literal of the
source; `url` is derived from `host`/`port` and carried as such, rounding
of the displayed rationals omitted).  The dict literal evaluates `status`
before `is_available`, so `status` is the pre-transition one. -/
structure NodeSnapshot where
  node_id : String
  service : String
  host : String
  port : Nat
  status : NodeStatus
  load_score : ℚ
  cpu_usage : ℚ
  memory_usage : ℚ
  active_connections : Nat
  avg_response_time_ms : ℚ
  error_rate : ℚ
  is_available : Bool
  deriving DecidableEq

/-- Retourner le statut de tous les noeuds (`get_nodes_status`).  Each
snapshot evaluates `node.is_available`, so the call carries that
property's recovery side effect on every node. -/
def DistributionSystem.get_nodes_status (s : DistributionSystem)
    (now : ℚ) : List NodeSnapshot × DistributionSystem :=
  let stepped := s.nodes.map (fun node =>
    let res := node.is_available now
    (({ node_id := node.node_id, service := node.service_name,
        host := node.host, port := node.port, status := node.status,
        load_score := node.load_score, cpu_usage := node.cpu_usage,
        memory_usage := node.memory_usage,
        active_connections := node.active_connections,
        avg_response_time_ms := node.avg_response_time_ms,
        error_rate := node.error_rate,
        is_available := res.1 } : NodeSnapshot), res.2))
  (stepped.map Prod.fst, { s with nodes := stepped.map Prod.snd })

/-- Feedback record appended to `_feedback_history`. -/
structure FeedbackRecord where
  node_id : String
  success : Bool
  response_time_ms : ℚ
  request_type : RequestType
  timestamp : ℚ
  deriving DecidableEq

/-- State of `AdaptiveLoadBalancer`: the wrapped `DistributionSystem` and
the bounded feedback log. -/
structure AdaptiveLoadBalancer where
  distribution : DistributionSystem
  feedback_history : List FeedbackRecord
  deriving DecidableEq

/-- Learning rate (`self._learning_rate = 0.1`, never mutated). -/
def learning_rate : ℚ := 0.1

/-- Selectionner le meilleur noeud (`select_node`): delegate to
`route_request` and bump the chosen node's `active_connections`. -/
def AdaptiveLoadBalancer.select_node (b : AdaptiveLoadBalancer)
    (request_type : RequestType) (priority : String) (now : ℚ) :
    Option RouteResult × AdaptiveLoadBalancer :=
  let res := b.distribution.route_request request_type priority now
  match res.1 with
  | some result =>
      (some result,
        { b with distribution := { res.2 with
            nodes := updateNode res.2.nodes result.node_id (fun n =>
              { n with active_connections := n.active_connections + 1 }) } })
  | none => (none, { b with distribution := res.2 })

/-- Liberer une connexion sur un noeud (`release_node`): decrement floored
at 0 (realised by truncated `Nat` subtraction), unknown node is a no-op. -/
def AdaptiveLoadBalancer.release_node (b : AdaptiveLoadBalancer)
    (node_id : String) : AdaptiveLoadBalancer :=
  { b with distribution := { b.distribution with
      nodes := updateNode b.distribution.nodes node_id (fun n =>
        { n with active_connections := n.active_connections - 1 }) } }

/-- Enregistrer le feedback d'une requete (`record_feedback`): forward to
`report_success`/`report_failure`, release the connection, clamp-adjust
the node's weight, and append to the bounded history (trimmed to the most
recent 5000 once it exceeds 10000). -/
def AdaptiveLoadBalancer.record_feedback (b : AdaptiveLoadBalancer)
    (node_id : String) (success : Bool) (response_time_ms : ℚ)
    (request_type : RequestType) (now : ℚ) : AdaptiveLoadBalancer :=
  let b :=
    if success then
      { b with distribution :=
          b.distribution.report_success node_id response_time_ms }
    else
      { b with distribution := b.distribution.report_failure node_id now }
  let b := b.release_node node_id
  let b := { b with distribution := { b.distribution with
      nodes := updateNode b.distribution.nodes node_id (fun node =>
        if success then
          let perf_factor := max 0.5 (1 - response_time_ms / 5000)
          { node with
            weight := min 2 (node.weight + learning_rate * perf_factor) }
        else
          { node with
            weight := max 0.1 (node.weight - learning_rate * 2) }) } }
  let history := b.feedback_history ++
    [{ node_id := node_id, success := success,
       response_time_ms := response_time_ms,
       request_type := request_type, timestamp := now }]
  let history :=
    if 10000 < history.length then history.drop (history.length - 5000)
    else history
  { b with feedback_history := history }

/-- Error taxonomy of `execute_with_retry`: the source raises
`RuntimeError("Aucun noeud disponible ...")` when selection fails and
`RuntimeError("Echec apres ... tentatives : ...")` after the loop. -/
inductive RetryError (E : Type) where
  | noAvailableNode
  | allRetriesExhausted (last : Option E)
  deriving DecidableEq

/-- Loop body of `execute_with_retry`, recursing on the number of
remaining attempts; `attempt` is the 1-based loop index of the source.
`behavior` gives, per attempt, the wall-clock duration the caller-supplied
operation takes and its outcome; `now` advances by those durations and by
the backoff sleeps, and collected backoff delays are returned alongside
the result and the final balancer state. -/
def AdaptiveLoadBalancer.retryAux {E R : Type}
    (behavior : Nat → ℚ × Except E R) (request_type : RequestType)
    (priority : String) :
    Nat → Nat → AdaptiveLoadBalancer → ℚ → Option E → List ℚ →
      Except (RetryError E) R × AdaptiveLoadBalancer × ℚ × List ℚ
  | 0, _, b, now, last_error, delays =>
      (.error (.allRetriesExhausted last_error), b, now, delays)
  | remaining + 1, attempt, b, now, last_error, delays =>
      match b.select_node request_type priority now with
      | (none, b1) => (.error .noAvailableNode, b1, now, delays)
      | (some route, b1) =>
          let dur := (behavior attempt).1
          let finish := now + dur
          let elapsed_ms := (finish - now) * 1000
          match (behavior attempt).2 with
          | .ok r =>
              let b2 := b1.record_feedback route.node_id true elapsed_ms
                request_type finish
              (.ok r, b2, finish, delays)
          | .error e =>
              let b2 := b1.record_feedback route.node_id false elapsed_ms
                request_type finish
              if attempt < MAX_RETRIES then
                let delay := min (RETRY_BASE_DELAY * 2 ^ (attempt - 1))
                  RETRY_MAX_DELAY
                AdaptiveLoadBalancer.retryAux behavior request_type priority
                  remaining (attempt + 1) b2 (finish + delay) (some e)
                  (delays ++ [delay])
              else
                AdaptiveLoadBalancer.retryAux behavior request_type priority
                  remaining (attempt + 1) b2 finish (some e) delays

/-- Executer une requete avec retry exponentiel (`execute_with_retry`):
`for attempt in range(1, MAX_RETRIES + 1)` driven by the fuel of
`retryAux`, starting at attempt 1 with no retained error. -/
def AdaptiveLoadBalancer.execute_with_retry {E R : Type}
    (b : AdaptiveLoadBalancer) (request_type : RequestType)
    (priority : String) (behavior : Nat → ℚ × Except E R) (now : ℚ) :
    Except (RetryError E) R × AdaptiveLoadBalancer × ℚ × List ℚ :=
  AdaptiveLoadBalancer.retryAux behavior request_type priority
    MAX_RETRIES 1 b now none []

/-- Fresh example node used by concrete witnesses (mirrors the default
registration of `minespotai-1`). -/
def nodeA : ServerNode :=
  { node_id := "minespotai-1", host := "minespotai-svc", port := 8001,
    service_name := "minespotai-svc" }

/-- Second example node, same pool, higher load. -/
def nodeB : ServerNode :=
  { node_id := "minespotai-2", host := "minespotai-svc", port := 8002,
    service_name := "minespotai-svc", cpu_usage := 90, memory_usage := 90,
    active_connections := 50 }

/-- Example node whose circuit is open since time 0. -/
def nodeOpen : ServerNode :=
  { nodeA with
    status := .CIRCUIT_OPEN, circuit_opened_at := 0,
    consecutive_failures := 5 }

/-- Updating every entry of a given id rewrites the first hit of a
`find?` by that id, provided the update preserves ids. -/
theorem findNode_updateNode (nodes : List ServerNode) (id : String)
    (f : ServerNode → ServerNode) (hf : ∀ m, (f m).node_id = m.node_id)
    (n : ServerNode)
    (h : nodes.find? (fun m => m.node_id == id) = some n) :
    (updateNode nodes id f).find? (fun m => m.node_id == id) =
      some (f n) := by
  induction nodes with
  | nil => simp at h
  | cons n0 rest ih =>
      by_cases hb : n0.node_id = id
      · rw [List.find?_cons_of_pos _ (by simp [hb])] at h
        injection h with h
        subst h
        have hu : updateNode (n0 :: rest) id f =
            f n0 :: updateNode rest id f := by
          simp [updateNode, hb]
        rw [hu, List.find?_cons_of_pos _ (by simp [hf, hb])]
      · rw [List.find?_cons_of_neg _ (by simp [hb])] at h
        have hu : updateNode (n0 :: rest) id f =
            n0 :: updateNode rest id f := by
          simp [updateNode, hb]
        rw [hu, List.find?_cons_of_neg _ (by simp [hb])]
        exact ih h

/-- C2: for a node with an open circuit, `is_available` transitions to
`DEGRADED` (resetting `consecutive_failures`) and answers available
exactly when the recovery timeout has elapsed; otherwise it answers
unavailable and leaves the node unchanged. -/
theorem c2_is_available_recovery (n : ServerNode) (now : ℚ)
    (h : n.status = .CIRCUIT_OPEN) :
    (CIRCUIT_RECOVERY_TIMEOUT < now - n.circuit_opened_at →
      n.is_available now =
        (true,
          { n with status := .DEGRADED, consecutive_failures := 0 })) ∧
    (now - n.circuit_opened_at ≤ CIRCUIT_RECOVERY_TIMEOUT →
      n.is_available now = (false, n)) := by
  constructor <;> intro h2
  · simp [ServerNode.is_available, h, h2]
  · simp [ServerNode.is_available, h, not_lt.mpr h2]

/-- Witness for C2 at a concrete open-circuit node, checked 61 s (elapsed)
and 30 s (not elapsed) after the circuit opened. -/
theorem c2_witness :
    nodeOpen.is_available 61 =
      (true,
        { nodeOpen with status := .DEGRADED, consecutive_failures := 0 }) ∧
    nodeOpen.is_available 30 = (false, nodeOpen) :=
  ⟨(c2_is_available_recovery nodeOpen 61 rfl).1
      (by norm_num [nodeOpen, nodeA, CIRCUIT_RECOVERY_TIMEOUT]),
    (c2_is_available_recovery nodeOpen 30 rfl).2
      (by norm_num [nodeOpen, nodeA, CIRCUIT_RECOVERY_TIMEOUT])⟩

/-- System holding just the fresh node `nodeA`. -/
def sysA : DistributionSystem := DistributionSystem.init.register_node nodeA

/-- C5 counterexample: on a fresh node (no previous response-time sample,
`avg_response_time_ms = 0`), a success report of 1000 ms yields an average
of 300 ms — the code blends against the initial 0 instead of seeding the
EMA with the first observation (which would give 1000). -/
theorem c5_counterexample :
    ((sysA.report_success "minespotai-1" 1000).findNode
        "minespotai-1").map ServerNode.avg_response_time_ms = some 300 ∧
      (300 : ℚ) ≠ 1000 := by
  constructor
  · norm_num [sysA, DistributionSystem.init, DistributionSystem.register_node,
      DistributionSystem.report_success, DistributionSystem.findNode,
      updateNode, nodeA]
  · norm_num

/-- C5 (amended): `report_success` always updates `avg_response_time_ms`
by the EMA blend with α = 0.3, including on the first observation, which
is blended against the initial value 0 rather than seeding the EMA. -/
theorem c5_report_success_ema (s : DistributionSystem) (id : String)
    (rt : ℚ) (n : ServerNode) (h : s.findNode id = some n) :
    ((s.report_success id rt).findNode id).map
        ServerNode.avg_response_time_ms =
      some (0.3 * rt + (1 - 0.3) * n.avg_response_time_ms) := by
  unfold DistributionSystem.report_success
  rw [h]
  simp only [DistributionSystem.findNode] at h ⊢
  rw [findNode_updateNode _ _ _ (by intro m; split <;> rfl) _ h]
  simp only [Option.map_some']
  split <;> rfl

/-- Witness for C5's amended theorem on the concrete fresh node. -/
theorem c5_witness :
    ((sysA.report_success "minespotai-1" 1000).findNode
        "minespotai-1").map ServerNode.avg_response_time_ms =
      some (0.3 * 1000 + (1 - 0.3) * nodeA.avg_response_time_ms) :=
  c5_report_success_ema sysA "minespotai-1" 1000 nodeA
    (by simp [sysA, DistributionSystem.init,
      DistributionSystem.register_node, DistributionSystem.findNode, nodeA])

/-- System holding just the open-circuit node `nodeOpen`. -/
def sysOpen : DistributionSystem :=
  DistributionSystem.init.register_node nodeOpen

/-- C4 counterexample: `get_nodes_status` is not read-only — on a system
with a node whose circuit opened 61 s ago it performs the `is_available`
recovery transition, so the post-state differs from the input state (the
node moved from `CIRCUIT_OPEN` to `DEGRADED`). -/
theorem c4_counterexample : (sysOpen.get_nodes_status 61).2 ≠ sysOpen := by
  intro h
  have h2 := congrArg
    (fun s => (s.findNode "minespotai-1").map ServerNode.status) h
  norm_num [sysOpen, DistributionSystem.init,
    DistributionSystem.register_node, DistributionSystem.get_nodes_status,
    DistributionSystem.findNode, ServerNode.is_available, nodeOpen, nodeA,
    CIRCUIT_RECOVERY_TIMEOUT] at h2
  exact NodeStatus.noConfusion h2

/-- C4 (amended): `get_nodes_status` leaves the whole system state
unchanged provided no node is a circuit-open node whose recovery timeout
has elapsed; on such nodes the snapshot's embedded `is_available` check
performs the recovery transition. -/
theorem c4_get_nodes_status_frame (s : DistributionSystem) (now : ℚ)
    (h : ∀ n ∈ s.nodes, n.status = .CIRCUIT_OPEN →
      now - n.circuit_opened_at ≤ CIRCUIT_RECOVERY_TIMEOUT) :
    (s.get_nodes_status now).2 = s := by
  have hid : ∀ n ∈ s.nodes, (n.is_available now).2 = n := by
    intro n hn
    unfold ServerNode.is_available
    split
    · rw [if_neg (not_lt.mpr (h n hn (by assumption)))]
    · rfl
  cases s with
  | mk nodes rc cts sr =>
      simp only [DistributionSystem.get_nodes_status, List.map_map,
        DistributionSystem.mk.injEq, and_true]
      calc nodes.map _ = nodes.map id := List.map_congr_left
            (fun n hn => hid n hn)
        _ = nodes := List.map_id nodes

/-- Witness for C4's amended theorem: a healthy single-node system is left
unchanged by `get_nodes_status`. -/
theorem c4_witness : (sysA.get_nodes_status 10).2 = sysA :=
  c4_get_nodes_status_frame sysA 10 (by
    intro n hn hst
    simp [sysA, DistributionSystem.init, DistributionSystem.register_node,
      nodeA] at hn
    rw [hn] at hst
    simp [nodeA] at hst)

/-- System with an available node but an empty routing table. -/
def sysNoRouting : DistributionSystem :=
  { nodes := [nodeA], route_cache := [], cache_timestamps := [],
    service_routing := [] }

/-- C6 counterexample: both routing-failure cases return the same value
`none` — a request type with no configured pool (empty routing table, an
available node registered) and a configured pool with no available node
(fresh system, no nodes) are indistinguishable from the returned value. -/
theorem c6_counterexample :
    (sysNoRouting.route_request .DATABASE_QUERY "MEDIUM" 0).1 = none ∧
    (DistributionSystem.init.route_request .DATABASE_QUERY "MEDIUM" 0).1 =
      none := by
  constructor
  · norm_num [sysNoRouting, DistributionSystem.route_request,
      DistributionSystem.routeFresh]
  · norm_num [DistributionSystem.init, DistributionSystem.route_request,
      DistributionSystem.routeFresh, default_service_routing, minByLoad]

/-- Routing with a cold cache key reduces to the fresh-routing path. -/
theorem route_request_of_cache_miss (s : DistributionSystem)
    (ty : RequestType) (p : String) (now : ℚ)
    (hcache : s.route_cache.lookup (ty, p) = none) :
    s.route_request ty p now = s.routeFresh ty p now := by
  unfold DistributionSystem.route_request
  simp only [hcache]

/-- C6 (amended): `route_request` signals failure with the single value
`none` in both cases — request type without a configured pool, and
configured pool with no available registered node (stated for a cold
cache key; the distinct log messages are not part of the returned value,
so a caller cannot distinguish the two cases). -/
theorem c6_route_request_failures (s : DistributionSystem)
    (ty : RequestType) (p : String) (now : ℚ)
    (hcache : s.route_cache.lookup (ty, p) = none) :
    (((s.service_routing.lookup ty).getD []).isEmpty →
      (s.route_request ty p now).1 = none) ∧
    ((∀ n ∈ s.nodes,
        (n.is_available now).1 = false ∨
          ¬ ((s.service_routing.lookup ty).getD []).contains
            (n.is_available now).2.service_name) →
      (s.route_request ty p now).1 = none) := by
  rw [route_request_of_cache_miss s ty p now hcache]
  unfold DistributionSystem.routeFresh
  constructor
  · intro hempty
    cases hlk : s.service_routing.lookup ty with
    | none => simp [hlk]
    | some l =>
        rw [hlk] at hempty
        simp only [Option.getD_some] at hempty
        simp [hlk, hempty]
  · intro hnone
    cases hlk : s.service_routing.lookup ty with
    | none => simp [hlk]
    | some l =>
        rw [hlk] at hnone
        simp only [Option.getD_some] at hnone
        by_cases hempty : l.isEmpty
        · simp [hlk, hempty]
        · have hfil : (s.nodes.map (fun n => n.is_available now)).filter
              (fun q => q.1 && l.contains q.2.service_name) = [] := by
            rw [List.filter_eq_nil_iff]
            intro q hq
            rw [List.mem_map] at hq
            obtain ⟨n, hn, rfl⟩ := hq
            rcases hnone n hn with h1 | h1
            · simp [h1]
            · simp only [Bool.and_eq_true]
              rintro ⟨-, hmem⟩
              exact h1 hmem
          simp only [hlk, hempty, if_false, Bool.false_eq_true]
          rw [hfil]
          simp [minByLoad]

/-- Witness for C6's amended theorem at the two concrete failure states. -/
theorem c6_witness :
    (sysNoRouting.route_request .DATABASE_QUERY "MEDIUM" 0).1 = none ∧
    (DistributionSystem.init.route_request .DATABASE_QUERY "MEDIUM" 0).1 =
      none := by
  constructor
  · exact (c6_route_request_failures sysNoRouting .DATABASE_QUERY
      "MEDIUM" 0 (by simp [sysNoRouting])).1 (by simp [sysNoRouting])
  · exact (c6_route_request_failures DistributionSystem.init
      .DATABASE_QUERY "MEDIUM" 0
      (by simp [DistributionSystem.init])).2 (by
        intro n hn
        simp [DistributionSystem.init] at hn)

/-- One `record_feedback` call, bundled for sequencing. -/
structure FeedbackEvent where
  node_id : String
  success : Bool
  response_time_ms : ℚ
  request_type : RequestType
  now : ℚ

/-- Apply one feedback event to the balancer. -/
def applyFeedback (b : AdaptiveLoadBalancer) (e : FeedbackEvent) :
    AdaptiveLoadBalancer :=
  b.record_feedback e.node_id e.success e.response_time_ms e.request_type
    e.now

/-- Every element of an updated registry comes from an element of the
original registry, either untouched or through the update function. -/
theorem mem_updateNode {nodes : List ServerNode} {id : String}
    {f : ServerNode → ServerNode} {n' : ServerNode}
    (h : n' ∈ updateNode nodes id f) :
    ∃ n ∈ nodes, n' = n ∨ n' = f n := by
  unfold updateNode at h
  rw [List.mem_map] at h
  obtain ⟨n, hn, hEq⟩ := h
  refine ⟨n, hn, ?_⟩
  by_cases hb : (n.node_id == id) = true
  · right
    rw [← hEq]
    simp [hb]
  · left
    rw [← hEq]
    simp [hb]

/-- The weight of any node after `record_feedback` is the old weight of
some registered node, either untouched or passed through the success or
failure clamp. -/
theorem record_feedback_weight_mem (b : AdaptiveLoadBalancer)
    (id : String) (success : Bool) (rt : ℚ) (ty : RequestType) (now : ℚ) :
    ∀ n' ∈ (b.record_feedback id success rt ty now).distribution.nodes,
      ∃ n ∈ b.distribution.nodes,
        n'.weight = n.weight ∨
        n'.weight =
          min 2 (n.weight + learning_rate * max 0.5 (1 - rt / 5000)) ∨
        n'.weight = max 0.1 (n.weight - learning_rate * 2) := by
  intro n' hn'
  unfold AdaptiveLoadBalancer.record_feedback at hn'
  simp only at hn'
  -- Peel the weight-adjustment layer.
  obtain ⟨n2, hn2, hc2⟩ := mem_updateNode hn'
  -- Peel the `release_node` layer.
  unfold AdaptiveLoadBalancer.release_node at hn2
  simp only at hn2
  obtain ⟨n1, hn1, hc1⟩ := mem_updateNode hn2
  -- Peel the `report_success` / `report_failure` layer.
  have hw1 : ∃ n ∈ b.distribution.nodes, n1.weight = n.weight := by
    cases success with
    | true =>
        simp only [if_true] at hn1
        unfold DistributionSystem.report_success at hn1
        rcases hfind : b.distribution.findNode id with _ | n0
        · rw [hfind] at hn1
          exact ⟨n1, hn1, rfl⟩
        · rw [hfind] at hn1
          simp only at hn1
          obtain ⟨n0', hn0', hc0⟩ := mem_updateNode hn1
          refine ⟨n0', hn0', ?_⟩
          rcases hc0 with rfl | rfl
          · rfl
          · split <;> rfl
    | false =>
        simp only [Bool.false_eq_true, if_false] at hn1
        unfold DistributionSystem.report_failure at hn1
        rcases hfind : b.distribution.findNode id with _ | n0
        · rw [hfind] at hn1
          exact ⟨n1, hn1, rfl⟩
        · rw [hfind] at hn1
          simp only at hn1
          obtain ⟨n0', hn0', hc0⟩ := mem_updateNode hn1
          refine ⟨n0', hn0', ?_⟩
          rcases hc0 with rfl | rfl
          · rfl
          · split <;> rfl
  obtain ⟨n0, hn0, hw⟩ := hw1
  have hw2 : n2.weight = n0.weight := by
    rcases hc1 with rfl | rfl
    · exact hw
    · exact hw
  refine ⟨n0, hn0, ?_⟩
  rcases hc2 with rfl | rfl
  · left
    exact hw2
  · cases success with
    | true =>
        right
        left
        simp only [if_true]
        rw [hw2]
    | false =>
        right
        right
        simp only [Bool.false_eq_true, if_false]
        rw [hw2]

/-- C7: for any starting balancer whose node weights all lie in
[0.1, 2.0] (in particular the initial weight 1.0) and any finite sequence
of `record_feedback` calls with arbitrary outcomes and response times,
every node's weight still lies in [0.1, 2.0]; applying this to every
prefix of the sequence gives the bound after each call. -/
theorem c7_weight_bounds (b : AdaptiveLoadBalancer)
    (events : List FeedbackEvent)
    (h : ∀ n ∈ b.distribution.nodes, 0.1 ≤ n.weight ∧ n.weight ≤ 2) :
    ∀ n' ∈ (events.foldl applyFeedback b).distribution.nodes,
      0.1 ≤ n'.weight ∧ n'.weight ≤ 2 := by
  induction events generalizing b with
  | nil => exact h
  | cons e rest ih =>
      rw [List.foldl_cons]
      apply ih
      intro n' hn'
      obtain ⟨n, hn, hcase⟩ := record_feedback_weight_mem b e.node_id
        e.success e.response_time_ms e.request_type e.now n' hn'
      obtain ⟨hl, hr⟩ := h n hn
      rcases hcase with h1 | h1 | h1 <;> rw [h1]
      · exact ⟨hl, hr⟩
      · have hpf : (0 : ℚ) ≤ max 0.5 (1 - e.response_time_ms / 5000) :=
          le_trans (by norm_num) (le_max_left _ _)
        constructor
        · refine le_min (by norm_num) ?_
          have : (0 : ℚ) ≤ learning_rate *
              max 0.5 (1 - e.response_time_ms / 5000) :=
            mul_nonneg (by norm_num [learning_rate]) hpf
          linarith
        · exact min_le_left _ _
      · constructor
        · exact le_max_left _ _
        · refine max_le (by norm_num) ?_
          have : (0 : ℚ) < learning_rate * 2 := by norm_num [learning_rate]
          linarith

/-- Fresh balancer over the single-node system `sysA`. -/
def balA : AdaptiveLoadBalancer :=
  { distribution := sysA, feedback_history := [] }

/-- Two concrete feedback events for the C7 witness. -/
def evs7 : List FeedbackEvent :=
  [{ node_id := "minespotai-1", success := true, response_time_ms := 100,
     request_type := .IMAGE_ANALYSIS, now := 1 },
   { node_id := "minespotai-1", success := false, response_time_ms := 50,
     request_type := .IMAGE_ANALYSIS, now := 2 }]

/-- Witness for C7 on a concrete balancer and event sequence. -/
theorem c7_witness :
    ((evs7.foldl applyFeedback balA).distribution.nodes.all
      (fun n => decide ((0.1 : ℚ) ≤ n.weight ∧ n.weight ≤ 2))) = true := by
  rw [List.all_eq_true]
  intro n hn
  have hb := c7_weight_bounds balA evs7 (by
    intro m hm
    simp [balA, sysA, DistributionSystem.init,
      DistributionSystem.register_node] at hm
    rw [hm]
    norm_num [nodeA]) n hn
  simpa using hb

/-- The availability step never changes a node's id. -/
theorem is_available_node_id (n : ServerNode) (now : ℚ) :
    ((n.is_available now).2).node_id = n.node_id := by
  unfold ServerNode.is_available
  split
  · split <;> rfl
  · rfl

/-- When the availability answer is negative the node is untouched. -/
theorem is_available_false_snd (n : ServerNode) (now : ℚ)
    (h : (n.is_available now).1 = false) : (n.is_available now).2 = n := by
  unfold ServerNode.is_available at h ⊢
  by_cases h1 : n.status = .CIRCUIT_OPEN
  · rw [if_pos h1] at h ⊢
    by_cases h2 : CIRCUIT_RECOVERY_TIMEOUT < now - n.circuit_opened_at
    · rw [if_pos h2] at h
      exact absurd h (by simp)
    · rw [if_neg h2]
  · rw [if_neg h1]

/-- `minByLoad` selects one of the candidates. -/
theorem minByLoad_mem {l : List ServerNode} {x : ServerNode}
    (h : minByLoad l = some x) : x ∈ l := by
  match l with
  | [] => simp [minByLoad] at h
  | n :: ns =>
      simp only [minByLoad, Option.some.injEq] at h
      have key : ∀ (ms : List ServerNode) (a : ServerNode),
          ms.foldl (fun acc m =>
            if m.load_score < acc.load_score then m else acc) a = a ∨
          ms.foldl (fun acc m =>
            if m.load_score < acc.load_score then m else acc) a ∈ ms := by
        intro ms
        induction ms with
        | nil => intro a; left; rfl
        | cons m ms ih =>
            intro a
            rw [List.foldl_cons]
            rcases ih (if m.load_score < a.load_score then m else a) with
              h1 | h1
            · rw [h1]
              split
              · right
                exact List.mem_cons_self m ms
              · left
                rfl
            · right
              exact List.mem_cons_of_mem m h1
      rcases key ns n with h1 | h1
      · rw [← h, h1]
        exact List.mem_cons_self n ns
      · rw [← h]
        exact List.mem_cons_of_mem n h1

/-- The node returned by `findNode` carries the id it was looked up by. -/
theorem findNode_id (s : DistributionSystem) (id : String)
    (n : ServerNode) (h : s.findNode id = some n) : n.node_id = id := by
  unfold DistributionSystem.findNode at h
  simpa using List.find?_some h

/-- On a registry with distinct ids, any member carrying the id found by
`findNode` is the found node itself. -/
theorem eq_of_mem_node_id (s : DistributionSystem) (id : String)
    (n m : ServerNode) (hdup : (s.nodes.map ServerNode.node_id).Nodup)
    (hfind : s.findNode id = some n) (hm : m ∈ s.nodes)
    (hid : m.node_id = id) : m = n := by
  unfold DistributionSystem.findNode at hfind
  have hn : n ∈ s.nodes := List.mem_of_find?_eq_some hfind
  have hpn : n.node_id = id := by simpa using List.find?_some hfind
  have hinj := List.inj_on_of_nodup_map hdup
  exact hinj hm hn (by rw [hid, hpn])

/-- Fresh routing never returns a node that answers unavailable: the
returned id differs from the id of any registered node whose availability
check is negative (registry ids assumed distinct). -/
theorem routeFresh_excludes (s : DistributionSystem) (id : String)
    (n : ServerNode) (ty : RequestType) (p : String) (now : ℚ)
    (hdup : (s.nodes.map ServerNode.node_id).Nodup)
    (hfind : s.findNode id = some n)
    (hunavail : (n.is_available now).1 = false) :
    ∀ r, (s.routeFresh ty p now).1 = some r → r.node_id ≠ id := by
  intro r hr
  unfold DistributionSystem.routeFresh at hr
  by_cases hempty : (match s.service_routing.lookup ty with
    | some l => l
    | none => []).isEmpty
  · rw [if_pos hempty] at hr
    simp at hr
  · rw [if_neg hempty] at hr
    simp only at hr
    rcases hmin : minByLoad (((s.nodes.map
        (fun n => n.is_available now)).filter
          (fun q => q.1 && (match s.service_routing.lookup ty with
            | some l => l
            | none => []).contains q.2.service_name)).map Prod.snd) with
      _ | best
    · rw [hmin] at hr
      simp at hr
    · rw [hmin] at hr
      simp only [Option.some.injEq] at hr
      have hbest := minByLoad_mem hmin
      rw [List.mem_map] at hbest
      obtain ⟨q, hq, rfl⟩ := hbest
      rw [List.mem_filter] at hq
      obtain ⟨hqmem, hqpred⟩ := hq
      rw [List.mem_map] at hqmem
      obtain ⟨m, hm, rfl⟩ := hqmem
      intro hid
      have hid2 : m.node_id = id := by
        rw [← is_available_node_id m now]
        rw [← hr] at hid
        exact hid
      have : m = n := eq_of_mem_node_id s id n m hdup hfind hm hid2
      subst this
      rw [Bool.and_eq_true] at hqpred
      rw [hunavail] at hqpred
      exact Bool.noConfusion hqpred.1

/-- Exclusion lifted to `route_request`: with distinct registry ids, a
node whose availability check answers false never appears in a routing
result, whether the cache path or the fresh path produces it. -/
theorem route_request_excludes (s : DistributionSystem) (id : String)
    (n : ServerNode) (ty : RequestType) (p : String) (now : ℚ)
    (hdup : (s.nodes.map ServerNode.node_id).Nodup)
    (hfind : s.findNode id = some n)
    (hunavail : (n.is_available now).1 = false) :
    ∀ r, (s.route_request ty p now).1 = some r → r.node_id ≠ id := by
  intro r hr
  unfold DistributionSystem.route_request at hr
  rcases hlk : s.route_cache.lookup (ty, p) with _ | cached
  · simp only [hlk] at hr
    exact routeFresh_excludes s id n ty p now hdup hfind hunavail r hr
  · simp only [hlk] at hr
    by_cases httl : now - (s.cache_timestamps.lookup (ty, p)).getD 0 <
        cache_ttl
    · rw [if_pos httl] at hr
      rcases hfd : s.findNode cached.node_id with _ | node
      · simp only [hfd] at hr
        exact routeFresh_excludes s id n ty p now hdup hfind hunavail r hr
      · simp only [hfd] at hr
        rcases hav : (node.is_available now).1 with _ | _
        · rw [hav] at hr
          simp only [Bool.false_eq_true, if_false] at hr
          have hsnd : (node.is_available now).2 = node :=
            is_available_false_snd node now hav
          have hnodes : updateNode s.nodes node.node_id
              (fun _ => (node.is_available now).2) = s.nodes := by
            unfold updateNode
            simp only [hsnd]
            have hmc : s.nodes.map
                (fun m => if m.node_id == node.node_id then node else m) =
                s.nodes.map (fun m => m) :=
              List.map_congr_left (fun m hm => by
                by_cases hb : (m.node_id == node.node_id) = true
                · rw [if_pos hb]
                  exact (eq_of_mem_node_id s cached.node_id node m hdup
                    hfd hm (by
                      rw [(by simpa using hb : m.node_id = node.node_id)]
                      exact findNode_id s cached.node_id node hfd)).symm
                · rw [if_neg hb])
            rw [hmc]
            simp
          rw [hnodes] at hr
          exact routeFresh_excludes s id n ty p now hdup hfind hunavail
            r hr
        · rw [hav] at hr
          simp only [if_true] at hr
          have hrid : r.node_id = cached.node_id := by
            have := hr.symm
            injection this with h1
            rw [h1]
          rw [hrid]
          intro hid
          rw [hid] at hfd
          rw [hfind] at hfd
          injection hfd with hfd
          rw [← hfd] at hav
          rw [hunavail] at hav
          exact Bool.noConfusion hav
    · rw [if_neg httl] at hr
      exact routeFresh_excludes s id n ty p now hdup hfind hunavail r hr

/-- Effect of one `report_failure` call on the reported node: counters
bump, and the circuit opens exactly when the bumped consecutive-failure
count reaches the threshold. -/
theorem report_failure_findNode (s : DistributionSystem) (id : String)
    (now : ℚ) (n : ServerNode) (hfind : s.findNode id = some n) :
    (s.report_failure id now).findNode id = some (
      if CIRCUIT_FAILURE_THRESHOLD ≤ n.consecutive_failures + 1 then
        { n with request_count := n.request_count + 1,
                 error_count := n.error_count + 1,
                 consecutive_failures := n.consecutive_failures + 1,
                 status := .CIRCUIT_OPEN, circuit_opened_at := now }
      else
        { n with request_count := n.request_count + 1,
                 error_count := n.error_count + 1,
                 consecutive_failures := n.consecutive_failures + 1 }) := by
  unfold DistributionSystem.report_failure
  rw [hfind]
  unfold DistributionSystem.findNode at hfind ⊢
  simp only
  rw [findNode_updateNode _ _ _ (by intro m; split <;> rfl) _ hfind]

/-- `report_failure` does not change the list of registered ids. -/
theorem report_failure_nodeIds (s : DistributionSystem) (id : String)
    (now : ℚ) :
    (s.report_failure id now).nodes.map ServerNode.node_id =
      s.nodes.map ServerNode.node_id := by
  unfold DistributionSystem.report_failure
  cases hf : s.findNode id with
  | none => rfl
  | some n =>
      simp only
      unfold updateNode
      rw [List.map_map]
      apply List.map_congr_left
      intro m _
      simp only [Function.comp_apply]
      by_cases hb : (m.node_id == id) = true
      · rw [if_pos hb]
        split <;> rfl
      · rw [if_neg hb]

/-- C1: starting from a registered node with no consecutive failures,
five `report_failure` calls with no intervening success leave the node
`CIRCUIT_OPEN` with `circuit_opened_at` equal to the time of the fifth
call (the first four calls do not change the status), and while the
recovery timeout has not elapsed no `route_request` result carries the
node's id (registry ids assumed distinct). -/
theorem c1_circuit_opens_on_threshold (s : DistributionSystem)
    (id : String) (n : ServerNode) (t1 t2 t3 t4 t5 : ℚ)
    (hdup : (s.nodes.map ServerNode.node_id).Nodup)
    (hfind : s.findNode id = some n)
    (h0 : n.consecutive_failures = 0) :
    ∃ n4 n5 : ServerNode,
      ((((s.report_failure id t1).report_failure id t2).report_failure id
        t3).report_failure id t4).findNode id = some n4 ∧
      n4.status = n.status ∧ n4.consecutive_failures = 4 ∧
      (((((s.report_failure id t1).report_failure id t2).report_failure
        id t3).report_failure id t4).report_failure id t5).findNode id =
        some n5 ∧
      n5.status = .CIRCUIT_OPEN ∧ n5.circuit_opened_at = t5 ∧
      n5.consecutive_failures = 5 ∧
      ∀ (ty : RequestType) (p : String) (now : ℚ),
        now - t5 ≤ CIRCUIT_RECOVERY_TIMEOUT →
        ∀ r, ((((((s.report_failure id t1).report_failure id
            t2).report_failure id t3).report_failure id
            t4).report_failure id t5).route_request ty p now).1 =
          some r → r.node_id ≠ id := by
  have h1 := report_failure_findNode s id t1 n hfind
  rw [h0] at h1
  norm_num [CIRCUIT_FAILURE_THRESHOLD] at h1
  have h2 := report_failure_findNode _ id t2 _ h1
  norm_num [CIRCUIT_FAILURE_THRESHOLD] at h2
  have h3 := report_failure_findNode _ id t3 _ h2
  norm_num [CIRCUIT_FAILURE_THRESHOLD] at h3
  have h4 := report_failure_findNode _ id t4 _ h3
  norm_num [CIRCUIT_FAILURE_THRESHOLD] at h4
  have h5 := report_failure_findNode _ id t5 _ h4
  norm_num [CIRCUIT_FAILURE_THRESHOLD] at h5
  refine ⟨_, _, h4, rfl, rfl, h5, rfl, rfl, rfl, ?_⟩
  intro ty p now hle r hr
  have hids : (((((s.report_failure id t1).report_failure id
      t2).report_failure id t3).report_failure id t4).report_failure id
      t5).nodes.map ServerNode.node_id = s.nodes.map ServerNode.node_id := by
    rw [report_failure_nodeIds, report_failure_nodeIds,
      report_failure_nodeIds, report_failure_nodeIds,
      report_failure_nodeIds]
  have hdup5 : ((((((s.report_failure id t1).report_failure id
      t2).report_failure id t3).report_failure id t4).report_failure id
      t5).nodes.map ServerNode.node_id).Nodup := by
    rw [hids]
    exact hdup
  refine route_request_excludes _ id _ ty p now hdup5 h5 ?_ r hr
  unfold ServerNode.is_available
  rw [if_pos rfl, if_neg (not_lt.mpr hle)]

/-- Witness for C1: driving `nodeA` through five failures at times 1..5
opens its circuit with `circuit_opened_at = 5`, and a routing call at
time 30 (timeout not elapsed) does not return it. -/
theorem c1_witness :
    (((((((sysA.report_failure "minespotai-1" 1).report_failure
        "minespotai-1" 2).report_failure "minespotai-1" 3).report_failure
        "minespotai-1" 4).report_failure "minespotai-1" 5).findNode
        "minespotai-1").map ServerNode.status = some .CIRCUIT_OPEN) ∧
    ((((((sysA.report_failure "minespotai-1" 1).report_failure
        "minespotai-1" 2).report_failure "minespotai-1" 3).report_failure
        "minespotai-1" 4).report_failure "minespotai-1" 5).route_request
        .IMAGE_ANALYSIS "MEDIUM" 30).1.map RouteResult.node_id ≠
      some "minespotai-1" := by
  obtain ⟨n4, n5, h4, hst4, hcf4, h5, hst5, hca5, hcf5, hex⟩ :=
    c1_circuit_opens_on_threshold sysA "minespotai-1" nodeA 1 2 3 4 5
      (by simp [sysA, DistributionSystem.init,
        DistributionSystem.register_node, nodeA])
      (by simp [sysA, DistributionSystem.init,
        DistributionSystem.register_node, DistributionSystem.findNode,
        nodeA])
      rfl
  constructor
  · rw [h5, Option.map_some', hst5]
  · rcases hq : ((((((sysA.report_failure "minespotai-1"
        1).report_failure "minespotai-1" 2).report_failure "minespotai-1"
        3).report_failure "minespotai-1" 4).report_failure "minespotai-1"
        5).route_request .IMAGE_ANALYSIS "MEDIUM" 30).1 with _ | r
    · simp
    · have hne := hex .IMAGE_ANALYSIS "MEDIUM" 30
        (by norm_num [CIRCUIT_RECOVERY_TIMEOUT]) r hq
      simp [hne]

/-- Effect of one `report_success` call on the reported node: counters
bump, `consecutive_failures` resets, the EMA blends, and only a
`DEGRADED` status is promoted back to `HEALTHY`. -/
theorem report_success_findNode (s : DistributionSystem) (id : String)
    (rt : ℚ) (n : ServerNode) (hfind : s.findNode id = some n) :
    (s.report_success id rt).findNode id = some (
      if n.status = .DEGRADED then
        { n with request_count := n.request_count + 1,
                 consecutive_failures := 0,
                 avg_response_time_ms :=
                   0.3 * rt + (1 - 0.3) * n.avg_response_time_ms,
                 status := .HEALTHY }
      else
        { n with request_count := n.request_count + 1,
                 consecutive_failures := 0,
                 avg_response_time_ms :=
                   0.3 * rt + (1 - 0.3) * n.avg_response_time_ms }) := by
  unfold DistributionSystem.report_success
  rw [hfind]
  unfold DistributionSystem.findNode at hfind ⊢
  simp only
  rw [findNode_updateNode _ _ _ (by intro m; split <;> rfl) _ hfind]

/-- The availability step is idempotent on the node component. -/
theorem is_available_snd_idem (n : ServerNode) (now : ℚ) :
    (((n.is_available now).2).is_available now).2 =
      (n.is_available now).2 := by
  unfold ServerNode.is_available
  by_cases h1 : n.status = .CIRCUIT_OPEN
  · rw [if_pos h1]
    by_cases h2 : CIRCUIT_RECOVERY_TIMEOUT < now - n.circuit_opened_at
    · rw [if_pos h2]
      simp
    · rw [if_neg h2, if_pos h1, if_neg h2]
  · rw [if_neg h1, if_neg h1]

/-- Every node of the state left by the fresh-routing path is either an
original registry node or its availability step. -/
theorem routeFresh_nodes_mem (s : DistributionSystem) (ty : RequestType)
    (p : String) (now : ℚ) (n' : ServerNode)
    (h : n' ∈ (s.routeFresh ty p now).2.nodes) :
    ∃ m ∈ s.nodes, n' = m ∨ n' = (m.is_available now).2 := by
  unfold DistributionSystem.routeFresh at h
  by_cases hempty : (match s.service_routing.lookup ty with
    | some l => l
    | none => []).isEmpty
  · rw [if_pos hempty] at h
    exact ⟨n', h, Or.inl rfl⟩
  · rw [if_neg hempty] at h
    simp only at h
    have hmem : n' ∈ (s.nodes.map (fun m => m.is_available now)).map
        Prod.snd := by
      rcases hmin : minByLoad (((s.nodes.map
          (fun n => n.is_available now)).filter
            (fun q => q.1 && (match s.service_routing.lookup ty with
              | some l => l
              | none => []).contains q.2.service_name)).map Prod.snd) with
        _ | best
      · rw [hmin] at h
        exact h
      · rw [hmin] at h
        exact h
    rw [List.map_map, List.mem_map] at hmem
    obtain ⟨m, hm, rfl⟩ := hmem
    exact ⟨m, hm, Or.inr rfl⟩

/-- Every node of the state left by `route_request` is either an original
registry node or its availability step (the only mutation the call makes
to node state goes through `is_available`). -/
theorem route_request_nodes_mem (s : DistributionSystem)
    (ty : RequestType) (p : String) (now : ℚ) (n' : ServerNode)
    (h : n' ∈ (s.route_request ty p now).2.nodes) :
    ∃ m ∈ s.nodes, n' = m ∨ n' = (m.is_available now).2 := by
  unfold DistributionSystem.route_request at h
  rcases hlk : s.route_cache.lookup (ty, p) with _ | cached
  · simp only [hlk] at h
    exact routeFresh_nodes_mem s ty p now n' h
  · simp only [hlk] at h
    by_cases httl : now - (s.cache_timestamps.lookup (ty, p)).getD 0 <
        cache_ttl
    · rw [if_pos httl] at h
      rcases hfd : s.findNode cached.node_id with _ | node
      · simp only [hfd] at h
        exact routeFresh_nodes_mem s ty p now n' h
      · simp only [hfd] at h
        have hnodemem : node ∈ s.nodes := by
          unfold DistributionSystem.findNode at hfd
          exact List.mem_of_find?_eq_some hfd
        rcases hav : (node.is_available now).1 with _ | _
        · rw [hav] at h
          simp only [Bool.false_eq_true, if_false] at h
          obtain ⟨m1, hm1, hc1⟩ := routeFresh_nodes_mem _ ty p now n' h
          obtain ⟨m, hm, hc⟩ := mem_updateNode hm1
          rcases hc with h3 | h3
          · rcases hc1 with h4 | h4
            · exact ⟨m, hm, Or.inl (h4.trans h3)⟩
            · exact ⟨m, hm, Or.inr (by rw [h4, h3])⟩
          · rcases hc1 with h4 | h4
            · exact ⟨node, hnodemem, Or.inr (by rw [h4, h3])⟩
            · refine ⟨node, hnodemem, Or.inr ?_⟩
              rw [h4, h3]
              exact is_available_snd_idem node now
        · rw [hav] at h
          simp only [if_true] at h
          obtain ⟨m, hm, hc⟩ := mem_updateNode h
          rcases hc with h3 | h3
          · exact ⟨m, hm, Or.inl h3⟩
          · exact ⟨node, hnodemem, Or.inr h3⟩
    · rw [if_neg httl] at h
      exact routeFresh_nodes_mem s ty p now n' h

/-- Every node of the state left by `get_nodes_status` is the
availability step of an original registry node. -/
theorem get_nodes_status_nodes_mem (s : DistributionSystem) (now : ℚ)
    (n' : ServerNode) (h : n' ∈ (s.get_nodes_status now).2.nodes) :
    ∃ m ∈ s.nodes, n' = (m.is_available now).2 := by
  unfold DistributionSystem.get_nodes_status at h
  simp only [List.map_map, List.mem_map] at h
  obtain ⟨m, hm, rfl⟩ := h
  exact ⟨m, hm, rfl⟩

/-- C10: a success report never closes an open circuit — on a
`CIRCUIT_OPEN` node `report_success` resets `consecutive_failures` to 0
but keeps the status `CIRCUIT_OPEN`; `report_failure` also keeps it
`CIRCUIT_OPEN`; the availability check is the only transition out, firing
exactly when the recovery timeout has elapsed and landing on `DEGRADED`;
and `route_request` / `get_nodes_status` touch node state only through
the availability step. -/
theorem c10_success_never_closes_circuit :
    (∀ (s : DistributionSystem) (id : String) (rt : ℚ) (n : ServerNode),
      s.findNode id = some n → n.status = .CIRCUIT_OPEN →
      ∃ n', (s.report_success id rt).findNode id = some n' ∧
        n'.status = .CIRCUIT_OPEN ∧ n'.consecutive_failures = 0) ∧
    (∀ (s : DistributionSystem) (id : String) (t : ℚ) (n : ServerNode),
      s.findNode id = some n → n.status = .CIRCUIT_OPEN →
      ∃ n', (s.report_failure id t).findNode id = some n' ∧
        n'.status = .CIRCUIT_OPEN) ∧
    (∀ (n : ServerNode) (now : ℚ), n.status = .CIRCUIT_OPEN →
      (((n.is_available now).2.status ≠ .CIRCUIT_OPEN ↔
        CIRCUIT_RECOVERY_TIMEOUT < now - n.circuit_opened_at) ∧
       ((n.is_available now).2.status ≠ .CIRCUIT_OPEN →
        (n.is_available now).2.status = .DEGRADED))) ∧
    (∀ (s : DistributionSystem) (ty : RequestType) (p : String) (now : ℚ)
      (n' : ServerNode), n' ∈ (s.route_request ty p now).2.nodes →
      ∃ m ∈ s.nodes, n' = m ∨ n' = (m.is_available now).2) ∧
    (∀ (s : DistributionSystem) (now : ℚ) (n' : ServerNode),
      n' ∈ (s.get_nodes_status now).2.nodes →
      ∃ m ∈ s.nodes, n' = (m.is_available now).2) := by
  refine ⟨?_, ?_, ?_, route_request_nodes_mem, get_nodes_status_nodes_mem⟩
  · intro s id rt n hfind hopen
    refine ⟨_, report_success_findNode s id rt n hfind, ?_⟩
    rw [if_neg (by rw [hopen]; intro hc; exact NodeStatus.noConfusion hc)]
    exact ⟨hopen, rfl⟩
  · intro s id t n hfind hopen
    refine ⟨_, report_failure_findNode s id t n hfind, ?_⟩
    by_cases hth : CIRCUIT_FAILURE_THRESHOLD ≤ n.consecutive_failures + 1
    · rw [if_pos hth]
    · rw [if_neg hth]
      exact hopen
  · intro n now hopen
    unfold ServerNode.is_available
    rw [if_pos hopen]
    by_cases h2 : CIRCUIT_RECOVERY_TIMEOUT < now - n.circuit_opened_at
    · rw [if_pos h2]
      constructor
      · exact ⟨fun _ => h2, fun _ hc => NodeStatus.noConfusion hc⟩
      · intro
        rfl
    · rw [if_neg h2]
      constructor
      · constructor
        · intro hne
          exact absurd hopen hne
        · intro hlt
          exact absurd hlt h2
      · intro hne
        exact absurd hopen hne

/-- Witness for C10 at concrete inputs: a success report at the open
node keeps the circuit open while zeroing the failure streak, and the
concrete availability checks before/after the timeout behave as stated. -/
theorem c10_witness :
    (∃ n', (sysOpen.report_success "minespotai-1" 500).findNode
        "minespotai-1" = some n' ∧
      n'.status = .CIRCUIT_OPEN ∧ n'.consecutive_failures = 0) ∧
    ((nodeOpen.is_available 30).2.status ≠ .CIRCUIT_OPEN ↔
      CIRCUIT_RECOVERY_TIMEOUT < (30 : ℚ) -
        nodeOpen.circuit_opened_at) := by
  constructor
  · exact c10_success_never_closes_circuit.1 sysOpen "minespotai-1" 500
      nodeOpen
      (by simp [sysOpen, DistributionSystem.init,
        DistributionSystem.register_node, DistributionSystem.findNode,
        nodeOpen, nodeA])
      rfl
  · exact (c10_success_never_closes_circuit.2.2.1 nodeOpen 30 rfl).1

/-- Forget a node's adaptive weight (used to state that routing does not
depend on it). -/
def eraseWeight (n : ServerNode) : ServerNode := { n with weight := 1 }

/-- Two systems that agree on everything except the nodes' weights. -/
def sysEquivExceptWeight (s1 s2 : DistributionSystem) : Prop :=
  s1.nodes.map eraseWeight = s2.nodes.map eraseWeight ∧
  s1.route_cache = s2.route_cache ∧
  s1.cache_timestamps = s2.cache_timestamps ∧
  s1.service_routing = s2.service_routing

/-- Mapped equality of lists is pointwise relatedness. -/
theorem map_eq_iff_forall2 {α β : Type} (f : α → β) :
    ∀ (l1 l2 : List α), l1.map f = l2.map f ↔
      List.Forall₂ (fun a b => f a = f b) l1 l2
  | [], [] => by simp
  | [], _ :: _ => by simp
  | _ :: _, [] => by simp
  | a :: l1, b :: l2 => by
      simp [map_eq_iff_forall2 f l1 l2]

/-- A relation-respecting Boolean predicate filters related lists to
related lists. -/
theorem forall2_filter {α : Type} {R : α → α → Prop} (p : α → Bool)
    (hp : ∀ a b, R a b → p a = p b) {l1 l2 : List α}
    (h : List.Forall₂ R l1 l2) :
    List.Forall₂ R (l1.filter p) (l2.filter p) := by
  induction h with
  | nil => exact List.Forall₂.nil
  | @cons a b l1 l2 hab _ ih =>
      simp only [List.filter_cons]
      rw [hp a b hab]
      cases p b with
      | true => exact List.Forall₂.cons hab ih
      | false => exact ih

/-- Mapping both sides of related lists by relation-transporting
functions yields related lists. -/
theorem forall2_map_map {α β : Type} {R : α → α → Prop}
    {S : β → β → Prop} (f g : α → β)
    (hf : ∀ a b, R a b → S (f a) (g b)) {l1 l2 : List α}
    (h : List.Forall₂ R l1 l2) :
    List.Forall₂ S (l1.map f) (l2.map g) := by
  induction h with
  | nil => exact List.Forall₂.nil
  | cons hab _ ih => exact List.Forall₂.cons (hf _ _ hab) ih

/-- `find?` with a relation-respecting predicate returns related results
on related lists. -/
theorem forall2_find? {α : Type} {R : α → α → Prop} (p : α → Bool)
    (hp : ∀ a b, R a b → p a = p b) {l1 l2 : List α}
    (h : List.Forall₂ R l1 l2) :
    (l1.find? p = none ∧ l2.find? p = none) ∨
    (∃ a b, R a b ∧ l1.find? p = some a ∧ l2.find? p = some b) := by
  induction h with
  | nil => exact Or.inl ⟨rfl, rfl⟩
  | @cons a b l1 l2 hab _ ih =>
      by_cases hpa : p a = true
      · refine Or.inr ⟨a, b, hab, ?_, ?_⟩
        · rw [List.find?_cons_of_pos _ hpa]
        · rw [List.find?_cons_of_pos _ ((hp a b hab) ▸ hpa)]
      · rw [List.find?_cons_of_neg _ hpa,
          List.find?_cons_of_neg _ ((hp a b hab) ▸ hpa)]
        exact ih

/-- The availability step commutes with forgetting the weight. -/
theorem is_available_eraseWeight (n : ServerNode) (now : ℚ) :
    (eraseWeight n).is_available now =
      ((n.is_available now).1, eraseWeight ((n.is_available now).2)) := by
  unfold ServerNode.is_available eraseWeight
  dsimp only
  by_cases h1 : n.status = .CIRCUIT_OPEN
  · rw [if_pos h1, if_pos h1]
    by_cases h2 : CIRCUIT_RECOVERY_TIMEOUT < now - n.circuit_opened_at
    · rw [if_pos h2, if_pos h2]
    · rw [if_neg h2, if_neg h2]
  · rw [if_neg h1, if_neg h1]

/-- Relatedness except weight transports through the availability step. -/
theorem rw_is_available {a b : ServerNode} (now : ℚ)
    (hab : eraseWeight a = eraseWeight b) :
    (a.is_available now).1 = (b.is_available now).1 ∧
    eraseWeight (a.is_available now).2 =
      eraseWeight (b.is_available now).2 := by
  have h := congrArg (ServerNode.is_available now) hab
  rw [is_available_eraseWeight, is_available_eraseWeight] at h
  have h1 := congrArg Prod.fst h
  have h2 := congrArg Prod.snd h
  exact ⟨h1, h2⟩

/-- Load score ignores the weight. -/
theorem rw_load_score {a b : ServerNode}
    (hab : eraseWeight a = eraseWeight b) :
    a.load_score = b.load_score := by
  have h := congrArg ServerNode.load_score hab
  exact h

/-- Node id ignores the weight. -/
theorem rw_node_id {a b : ServerNode}
    (hab : eraseWeight a = eraseWeight b) : a.node_id = b.node_id := by
  have h := congrArg ServerNode.node_id hab
  exact h

/-- Service name ignores the weight. -/
theorem rw_service_name {a b : ServerNode}
    (hab : eraseWeight a = eraseWeight b) :
    a.service_name = b.service_name := by
  have h := congrArg ServerNode.service_name hab
  exact h

/-- The first-minimum fold used by node selection lands on related nodes
when fed related accumulators and related lists. -/
theorem forall2_foldl_min {a b : ServerNode} {l1 l2 : List ServerNode}
    (hab : eraseWeight a = eraseWeight b)
    (h : List.Forall₂ (fun x y => eraseWeight x = eraseWeight y) l1 l2) :
    eraseWeight (l1.foldl (fun acc m =>
        if m.load_score < acc.load_score then m else acc) a) =
      eraseWeight (l2.foldl (fun acc m =>
        if m.load_score < acc.load_score then m else acc) b) := by
  induction h generalizing a b with
  | nil => exact hab
  | @cons x y l1 l2 hxy _ ih =>
      rw [List.foldl_cons, List.foldl_cons]
      apply ih
      rw [rw_load_score hxy, rw_load_score hab]
      by_cases hc : y.load_score < b.load_score
      · rw [if_pos hc, if_pos hc]
        exact hxy
      · rw [if_neg hc, if_neg hc]
        exact hab

/-- `minByLoad` returns related selections on related candidate lists. -/
theorem forall2_minByLoad {l1 l2 : List ServerNode}
    (h : List.Forall₂ (fun x y => eraseWeight x = eraseWeight y) l1 l2) :
    (minByLoad l1 = none ∧ minByLoad l2 = none) ∨
    (∃ x y, eraseWeight x = eraseWeight y ∧
      minByLoad l1 = some x ∧ minByLoad l2 = some y) := by
  cases h with
  | nil => exact Or.inl ⟨rfl, rfl⟩
  | @cons a b l1 l2 hab htl =>
      exact Or.inr ⟨_, _, forall2_foldl_min hab htl, rfl, rfl⟩

/-- Fresh routing is insensitive to node weights: equal-except-weight
states produce the same routing result and stay equal except weights. -/
theorem routeFresh_noninterference (s1 s2 : DistributionSystem)
    (ty : RequestType) (p : String) (now : ℚ)
    (h : sysEquivExceptWeight s1 s2) :
    (s1.routeFresh ty p now).1 = (s2.routeFresh ty p now).1 ∧
    sysEquivExceptWeight (s1.routeFresh ty p now).2
      (s2.routeFresh ty p now).2 := by
  obtain ⟨hn, hc, hts, hsr⟩ := h
  have hF : List.Forall₂ (fun x y => eraseWeight x = eraseWeight y)
      s1.nodes s2.nodes := (map_eq_iff_forall2 eraseWeight _ _).mp hn
  have hstep : List.Forall₂ (fun (q1 q2 : Bool × ServerNode) =>
      q1.1 = q2.1 ∧ eraseWeight q1.2 = eraseWeight q2.2)
      (s1.nodes.map (fun n => n.is_available now))
      (s2.nodes.map (fun n => n.is_available now)) := by
    apply forall2_map_map _ _ _ hF
    intro a b hab
    exact rw_is_available now hab
  have hsnd : List.Forall₂ (fun x y => eraseWeight x = eraseWeight y)
      ((s1.nodes.map (fun n => n.is_available now)).map Prod.snd)
      ((s2.nodes.map (fun n => n.is_available now)).map Prod.snd) := by
    apply forall2_map_map _ _ _ hstep
    intro a b hab
    exact hab.2
  have hnodes' : ((s1.nodes.map (fun n => n.is_available now)).map
      Prod.snd).map eraseWeight =
      ((s2.nodes.map (fun n => n.is_available now)).map
        Prod.snd).map eraseWeight :=
    (map_eq_iff_forall2 eraseWeight _ _).mpr hsnd
  simp only [DistributionSystem.routeFresh]
  rw [hsr]
  by_cases hempty : (match s2.service_routing.lookup ty with
    | some l => l
    | none => []).isEmpty
  · rw [if_pos hempty, if_pos hempty]
    exact ⟨rfl, hn, hc, hts, hsr⟩
  · rw [if_neg hempty, if_neg hempty]
    have hfil := forall2_filter (fun (q : Bool × ServerNode) =>
      q.1 && (match s2.service_routing.lookup ty with
        | some l => l
        | none => []).contains q.2.service_name)
      (fun a b hab => by
        simp only
        rw [hab.1, rw_service_name hab.2]) hstep
    have havail : List.Forall₂
        (fun x y => eraseWeight x = eraseWeight y)
        ((((s1.nodes.map (fun n => n.is_available now)).filter
          (fun q => q.1 && (match s2.service_routing.lookup ty with
            | some l => l
            | none => []).contains q.2.service_name))).map Prod.snd)
        ((((s2.nodes.map (fun n => n.is_available now)).filter
          (fun q => q.1 && (match s2.service_routing.lookup ty with
            | some l => l
            | none => []).contains q.2.service_name))).map Prod.snd) := by
      apply forall2_map_map _ _ _ hfil
      intro a b hab
      exact hab.2
    rcases forall2_minByLoad havail with ⟨hm1, hm2⟩ |
      ⟨x, y, hxy, hm1, hm2⟩
    · simp only [hm1, hm2]
      exact ⟨by trivial, hnodes', hc, hts, by trivial⟩
    · simp only [hm1, hm2]
      refine ⟨?_, ?_, ?_, ?_, by trivial⟩
      · rw [rw_node_id hxy]
      · exact hnodes'
      · rw [rw_node_id hxy, hc]
      · rw [hts]

/-- C9: node selection is independent of the adaptive weights — two
states identical except for the nodes' weight values give `route_request`
results that are equal (same node id, timeout and cached flag), and the
post-states remain identical except for weights. -/
theorem c9_route_request_weight_noninterference
    (s1 s2 : DistributionSystem) (ty : RequestType) (p : String)
    (now : ℚ) (h : sysEquivExceptWeight s1 s2) :
    (s1.route_request ty p now).1 = (s2.route_request ty p now).1 ∧
    sysEquivExceptWeight (s1.route_request ty p now).2
      (s2.route_request ty p now).2 := by
  obtain ⟨hn, hc, hts, hsr⟩ := h
  have hF : List.Forall₂ (fun x y => eraseWeight x = eraseWeight y)
      s1.nodes s2.nodes := (map_eq_iff_forall2 eraseWeight _ _).mp hn
  simp only [DistributionSystem.route_request]
  rw [hc, hts]
  cases hlk : s2.route_cache.lookup (ty, p) with
  | none =>
      simp only [hlk]
      exact routeFresh_noninterference s1 s2 ty p now ⟨hn, hc, hts, hsr⟩
  | some cached =>
      simp only [hlk]
      by_cases httl : now - ((s2.cache_timestamps.lookup
          (ty, p)).getD 0) < cache_ttl
      · rw [if_pos httl, if_pos httl]
        rcases forall2_find? (fun n => n.node_id == cached.node_id)
          (fun a b hab => by
            simp only
            rw [rw_node_id hab]) hF with
          ⟨hf1, hf2⟩ | ⟨a, b, hab, hf1, hf2⟩
        · simp only [DistributionSystem.findNode, hf1, hf2]
          exact routeFresh_noninterference s1 s2 ty p now
            ⟨hn, hc, hts, hsr⟩
        · simp only [DistributionSystem.findNode, hf1, hf2]
          have hav := rw_is_available now hab
          have hup : (updateNode s1.nodes a.node_id
              (fun _ => (a.is_available now).2)).map eraseWeight =
              (updateNode s2.nodes b.node_id
                (fun _ => (b.is_available now).2)).map eraseWeight := by
            apply (map_eq_iff_forall2 eraseWeight _ _).mpr
            unfold updateNode
            apply forall2_map_map _ _ _ hF
            intro x y hxy
            simp only
            rw [show (x.node_id == a.node_id) =
                (y.node_id == b.node_id) by
              rw [rw_node_id hxy, rw_node_id hab]]
            by_cases hcnd : (y.node_id == b.node_id) = true
            · rw [if_pos hcnd, if_pos hcnd]
              exact hav.2
            · rw [if_neg hcnd, if_neg hcnd]
              exact hxy
          cases havb : (b.is_available now).1 with
          | false =>
              rw [hav.1.trans havb]
              simp only [Bool.false_eq_true, if_false]
              exact routeFresh_noninterference _ _ ty p now
                ⟨hup, by trivial, by trivial, hsr⟩
          | true =>
              rw [hav.1.trans havb]
              simp only [if_true]
              exact ⟨by trivial, hup, by trivial, by trivial, hsr⟩
      · rw [if_neg httl, if_neg httl]
        exact routeFresh_noninterference s1 s2 ty p now ⟨hn, hc, hts, hsr⟩

/-- Copy of `sysA` whose node weight was changed to 0.25. -/
def sysAlight : DistributionSystem :=
  { sysA with nodes := [{ nodeA with weight := 0.25 }] }

/-- Witness for C9: `sysA` and its reweighted copy route identically. -/
theorem c9_witness :
    (sysA.route_request .IMAGE_ANALYSIS "HIGH" 3).1 =
      (sysAlight.route_request .IMAGE_ANALYSIS "HIGH" 3).1 ∧
    sysEquivExceptWeight (sysA.route_request .IMAGE_ANALYSIS "HIGH" 3).2
      (sysAlight.route_request .IMAGE_ANALYSIS "HIGH" 3).2 :=
  c9_route_request_weight_noninterference sysA sysAlight .IMAGE_ANALYSIS
    "HIGH" 3
    (by
      refine ⟨?_, rfl, rfl, rfl⟩
      simp [sysA, sysAlight, DistributionSystem.init,
        DistributionSystem.register_node, nodeA, eraseWeight])

/-- Looking up the key just written by the dict-style insert. -/
theorem lookup_dictInsert {α β : Type} [BEq α] [LawfulBEq α]
    (d : List (α × β)) (k : α) (v : β) :
    (dictInsert d k v).lookup k = some v := by
  unfold dictInsert
  by_cases hany : (d.any (fun p => p.1 == k)) = true
  · rw [if_pos hany]
    induction d with
    | nil => simp at hany
    | cons a t ih =>
        simp only [List.any_cons, Bool.or_eq_true] at hany
        simp only [List.map_cons]
        by_cases hb : (a.1 == k) = true
        · rw [if_pos hb]
          simp [List.lookup]
        · rw [if_neg hb]
          simp only [List.lookup]
          have hne : k ≠ a.1 := by
            intro he
            rw [he] at hb
            simp at hb
          rw [show (k == a.1) = false from beq_eq_false_iff_ne.mpr hne]
          apply ih
          rcases hany with h | h
          · exact absurd h hb
          · exact h
  · rw [if_neg hany]
    rw [Bool.not_eq_true] at hany
    induction d with
    | nil => simp [List.lookup]
    | cons a t ih =>
        simp only [List.any_cons, Bool.or_eq_false_iff] at hany
        simp only [List.cons_append, List.lookup]
        have hne : k ≠ a.1 := by
          intro he
          rw [he] at hany
          simp at hany
        rw [show (k == a.1) = false from beq_eq_false_iff_ne.mpr hne]
        exact ih hany.2

/-- On a registry with distinct ids a member is found by its own id. -/
theorem find_of_mem_nodup (l : List ServerNode) (m : ServerNode)
    (hdup : (l.map ServerNode.node_id).Nodup) (hm : m ∈ l) :
    l.find? (fun n => n.node_id == m.node_id) = some m := by
  cases hfx : l.find? (fun n => n.node_id == m.node_id) with
  | none =>
      have := List.find?_eq_none.mp hfx m hm
      simp at this
  | some x =>
      have hx : x ∈ l := List.mem_of_find?_eq_some hfx
      have hpx : x.node_id = m.node_id := by
        simpa using List.find?_some hfx
      rw [List.inj_on_of_nodup_map hdup hx hm hpx]

/-- A positive availability answer leaves the node `HEALTHY` or
`DEGRADED`. -/
theorem is_available_true_status (m : ServerNode) (now : ℚ)
    (h : (m.is_available now).1 = true) :
    (m.is_available now).2.status = .HEALTHY ∨
    (m.is_available now).2.status = .DEGRADED := by
  unfold ServerNode.is_available at h ⊢
  by_cases h1 : m.status = .CIRCUIT_OPEN
  · rw [if_pos h1] at h ⊢
    by_cases h2 : CIRCUIT_RECOVERY_TIMEOUT < now - m.circuit_opened_at
    · rw [if_pos h2]
      right
      rfl
    · rw [if_neg h2] at h
      exact absurd h (by simp)
  · rw [if_neg h1] at h ⊢
    simpa using h

/-- A `HEALTHY` or `DEGRADED` node is available at any time. -/
theorem is_available_of_status_hd (m : ServerNode) (now : ℚ)
    (h : m.status = .HEALTHY ∨ m.status = .DEGRADED) :
    (m.is_available now).1 = true := by
  unfold ServerNode.is_available
  have h1 : ¬ m.status = .CIRCUIT_OPEN := by
    rcases h with h | h <;> rw [h] <;> intro hc <;>
      exact NodeStatus.noConfusion hc
  rw [if_neg h1]
  simpa using h

/-- Updating entries through an id-preserving function keeps the id
list. -/
theorem updateNode_map_node_id (nodes : List ServerNode) (id : String)
    (f : ServerNode → ServerNode)
    (hf : ∀ m, m.node_id = id → (f m).node_id = m.node_id) :
    (updateNode nodes id f).map ServerNode.node_id =
      nodes.map ServerNode.node_id := by
  unfold updateNode
  rw [List.map_map]
  apply List.map_congr_left
  intro m _
  simp only [Function.comp_apply]
  by_cases hb : (m.node_id == id) = true
  · rw [if_pos hb]
    exact hf m (by simpa using hb)
  · rw [if_neg hb]

/-- A `route_request` call whose result is not marked cached went through
the fresh-routing path, on a state that differs from the input at most in
node fields reachable through the availability step (same caches, same
routing table, same id list). -/
theorem route_request_not_cached_branch (s : DistributionSystem)
    (ty : RequestType) (p : String) (now : ℚ) (r : RouteResult)
    (h1 : (s.route_request ty p now).1 = some r)
    (hfresh : r.cached = false) :
    ∃ sm : DistributionSystem,
      s.route_request ty p now = sm.routeFresh ty p now ∧
      sm.route_cache = s.route_cache ∧
      sm.cache_timestamps = s.cache_timestamps ∧
      sm.service_routing = s.service_routing ∧
      sm.nodes.map ServerNode.node_id = s.nodes.map ServerNode.node_id := by
  unfold DistributionSystem.route_request at h1 ⊢
  rcases hlk : s.route_cache.lookup (ty, p) with _ | cached
  · simp only [hlk]
    exact ⟨s, rfl, rfl, rfl, rfl, rfl⟩
  · simp only [hlk] at h1 ⊢
    by_cases httl : now - (s.cache_timestamps.lookup (ty, p)).getD 0 <
        cache_ttl
    · rw [if_pos httl] at h1 ⊢
      rcases hfd : s.findNode cached.node_id with _ | node
      · simp only [hfd]
        exact ⟨s, rfl, rfl, rfl, rfl, rfl⟩
      · simp only [hfd] at h1 ⊢
        rcases hav : (node.is_available now).1 with _ | _
        · simp only [Bool.false_eq_true, if_false] at h1 ⊢
          refine ⟨_, rfl, rfl, rfl, rfl, ?_⟩
          exact updateNode_map_node_id s.nodes node.node_id _
            (fun m hm => (is_available_node_id node now).trans hm.symm)
        · rw [if_pos hav] at h1
          simp only [Option.some.injEq] at h1
          rw [← h1] at hfresh
          exact absurd hfresh (by simp)
    · rw [if_neg httl] at h1 ⊢
      exact ⟨s, rfl, rfl, rfl, rfl, rfl⟩

/-- C8 (amended): if a `route_request` call at time `t1` returns a fresh
(non-cached) result and the same `(requestType, priority)` is routed
again at `t2` with `t2 − t1 < RouteCacheTTL` and nothing else happening
in between, the second call returns the same node id with
`cached = true`.  (The freshness premise is needed: the TTL runs from the
cache entry's creation, not from the previous call, so a first call that
was itself served from cache can leave the second call outside the TTL.) -/
theorem c8_cache_stability (s : DistributionSystem) (ty : RequestType)
    (p : String) (t1 t2 : ℚ) (r : RouteResult)
    (hdup : (s.nodes.map ServerNode.node_id).Nodup)
    (h1 : (s.route_request ty p t1).1 = some r)
    (hfresh : r.cached = false)
    (httl : t2 - t1 < cache_ttl) :
    ∃ r', ((s.route_request ty p t1).2.route_request ty p t2).1 =
      some r' ∧ r'.node_id = r.node_id ∧ r'.cached = true := by
  obtain ⟨sm, heq, hrc, hts, hsr, hids⟩ :=
    route_request_not_cached_branch s ty p t1 r h1 hfresh
  rw [heq] at h1 ⊢
  unfold DistributionSystem.routeFresh at h1 ⊢
  by_cases hempty : (match sm.service_routing.lookup ty with
    | some l => l
    | none => []).isEmpty
  · rw [if_pos hempty] at h1
    exact absurd h1 (by simp)
  · rw [if_neg hempty] at h1 ⊢
    rcases hmin : minByLoad (((sm.nodes.map
        (fun n => n.is_available t1)).filter
          (fun q => q.1 && (match sm.service_routing.lookup ty with
            | some l => l
            | none => []).contains q.2.service_name)).map Prod.snd) with
      _ | best
    · simp only [hmin] at h1
      exact absurd h1 (by simp)
    · simp only [hmin] at h1 ⊢
      simp only [Option.some.injEq] at h1
      -- Facts about the selected node.
      have hbm := minByLoad_mem hmin
      rw [List.mem_map] at hbm
      obtain ⟨q, hqf, hq2⟩ := hbm
      obtain ⟨hqs, hqp⟩ := List.mem_filter.mp hqf
      rw [Bool.and_eq_true] at hqp
      rw [List.mem_map] at hqs
      obtain ⟨m0, hm0, hqm⟩ := hqs
      have hstatus : best.status = .HEALTHY ∨ best.status = .DEGRADED := by
        rw [← hq2, ← hqm]
        rw [← hqm] at hqp
        exact is_available_true_status m0 t1 hqp.1
      have hav2 : (best.is_available t2).1 = true :=
        is_available_of_status_hd best t2 hstatus
      have hbmem : best ∈ (sm.nodes.map
          (fun n => n.is_available t1)).map Prod.snd := by
        rw [← hq2]
        exact List.mem_map_of_mem Prod.snd (List.mem_of_mem_filter hqf)
      have hdup2 : (((sm.nodes.map (fun n => n.is_available t1)).map
          Prod.snd).map ServerNode.node_id).Nodup := by
        have hids2 : ((sm.nodes.map (fun n => n.is_available t1)).map
            Prod.snd).map ServerNode.node_id =
            sm.nodes.map ServerNode.node_id := by
          rw [List.map_map, List.map_map]
          apply List.map_congr_left
          intro m _
          simp only [Function.comp_apply]
          exact is_available_node_id m t1
        rw [hids2, hids]
        exact hdup
      have hfindS := find_of_mem_nodup _ best hdup2 hbmem
      -- Second call: cache hit on the freshly inserted entry.
      unfold DistributionSystem.route_request
      simp only [lookup_dictInsert]
      rw [← h1]
      simp only [Option.getD_some]
      rw [if_pos httl]
      simp only [DistributionSystem.findNode]
      rw [hfindS]
      simp only [hav2, if_true]
      exact ⟨_, rfl, rfl, rfl⟩

/-- C8 counterexample: the TTL runs from the cache entry's creation, not
from the previous call.  Route at time 0 (fresh, creates the entry), then
at 29 (cache hit, `cached = true`), then at 31 — only 2 s after the
previous returning call, well within the 30 s TTL, with no intervening
change in any node's availability — and the result has `cached = false`,
refuting the claim for that pair of calls. -/
theorem c8_counterexample :
    ((sysA.route_request .IMAGE_ANALYSIS "MEDIUM" 0).2.route_request
      .IMAGE_ANALYSIS "MEDIUM" 29).1.map RouteResult.cached =
      some true ∧
    ((31 : ℚ) - 29 < cache_ttl) ∧
    ((((sysA.route_request .IMAGE_ANALYSIS "MEDIUM" 0).2.route_request
      .IMAGE_ANALYSIS "MEDIUM" 29).2.route_request .IMAGE_ANALYSIS
      "MEDIUM" 31).1.map RouteResult.cached = some false) := by
  refine ⟨?_, by norm_num [cache_ttl], ?_⟩ <;>
    norm_num +decide [sysA, DistributionSystem.init,
      DistributionSystem.register_node, DistributionSystem.route_request,
      DistributionSystem.routeFresh, DistributionSystem.findNode,
      updateNode, ServerNode.is_available, minByLoad, priorityTimeout,
      PRIORITY_TIMEOUTS, dictInsert, cache_ttl, default_service_routing,
      CIRCUIT_RECOVERY_TIMEOUT, List.lookup, nodeA]

/-- Concrete fresh result of routing `IMAGE_ANALYSIS`/`MEDIUM` on the
single-node system. -/
def c8r : RouteResult :=
  { node_id := "minespotai-1", request_type := .IMAGE_ANALYSIS,
    priority := "MEDIUM", timeout := 30, attempt := 1, cached := false }

/-- Witness for C8's amended theorem: a fresh route at time 0 followed by
a repeat at time 29 hits the cache with the same node id. -/
theorem c8_witness :
    ((sysA.route_request .IMAGE_ANALYSIS "MEDIUM" 0).2.route_request
      .IMAGE_ANALYSIS "MEDIUM" 29).1.map RouteResult.cached =
      some true ∧
    ((sysA.route_request .IMAGE_ANALYSIS "MEDIUM" 0).2.route_request
      .IMAGE_ANALYSIS "MEDIUM" 29).1.map RouteResult.node_id =
      some c8r.node_id := by
  have h1 : (sysA.route_request .IMAGE_ANALYSIS "MEDIUM" 0).1 =
      some c8r := by
    norm_num +decide [sysA, DistributionSystem.init,
      DistributionSystem.register_node, DistributionSystem.route_request,
      DistributionSystem.routeFresh, DistributionSystem.findNode,
      updateNode, ServerNode.is_available, minByLoad, priorityTimeout,
      PRIORITY_TIMEOUTS, dictInsert, cache_ttl, default_service_routing,
      CIRCUIT_RECOVERY_TIMEOUT, List.lookup, nodeA, c8r]
  obtain ⟨r', he, hn, hc⟩ := c8_cache_stability sysA .IMAGE_ANALYSIS
    "MEDIUM" 0 29 c8r
    (by simp [sysA, DistributionSystem.init,
      DistributionSystem.register_node, nodeA])
    h1 rfl (by norm_num [cache_ttl])
  rw [he]
  simp [hn, hc]

/-- Continuation-style characterisation of the backoff delays collected
by the retry loop: starting at a given attempt they extend the
accumulator by `min(BaseDelay·2^(a−1), MaxDelay)` for at most
`MaxRetries − attempt` consecutive attempts `a`. -/
theorem retryAux_delays_cps {E R : Type} (behavior : Nat → ℚ × Except E R)
    (rt : RequestType) (p : String) :
    ∀ (remaining attempt : Nat) (b : AdaptiveLoadBalancer) (now : ℚ)
      (le : Option E) (ds : List ℚ) (P : List ℚ → Prop),
      (∀ k, k ≤ MAX_RETRIES - attempt →
        P (ds ++ (List.range k).map (fun j =>
          min (RETRY_BASE_DELAY * 2 ^ (attempt + j - 1))
            RETRY_MAX_DELAY))) →
      P ((AdaptiveLoadBalancer.retryAux behavior rt p remaining attempt b
        now le ds).2.2.2) := by
  intro remaining
  induction remaining with
  | zero =>
      intro attempt b now le ds P hP
      have h0 := hP 0 (Nat.zero_le _)
      simpa [AdaptiveLoadBalancer.retryAux] using h0
  | succ rem ih =>
      intro attempt b now le ds P hP
      unfold AdaptiveLoadBalancer.retryAux
      split
      · have h0 := hP 0 (Nat.zero_le _)
        simpa using h0
      · split
        · have h0 := hP 0 (Nat.zero_le _)
          simpa using h0
        · split_ifs with hlt
          · apply ih
            intro k hk
            have h2 := hP (k + 1) (by
              have hm : MAX_RETRIES = 3 := rfl
              rw [hm] at hlt hk ⊢
              omega)
            have hlist : ds ++ (List.range (k + 1)).map (fun j =>
                min (RETRY_BASE_DELAY * 2 ^ (attempt + j - 1))
                  RETRY_MAX_DELAY) =
                (ds ++ [min (RETRY_BASE_DELAY * 2 ^ (attempt - 1))
                  RETRY_MAX_DELAY]) ++ (List.range k).map (fun j =>
                    min (RETRY_BASE_DELAY * 2 ^ (attempt + 1 + j - 1))
                      RETRY_MAX_DELAY) := by
              rw [List.range_succ_eq_map, List.map_cons, List.map_map,
                List.append_assoc]
              congr 2
              simp
            rw [hlist] at h2
            exact h2
          · apply ih
            intro k hk
            have hk0 : k = 0 := by
              have hm : MAX_RETRIES = 3 := rfl
              rw [hm] at hlt hk
              omega
            subst hk0
            simpa using hP 0 (Nat.zero_le _)

/-- Operation of Scenario C: takes 1 s per attempt, fails on attempts 1
and 2, succeeds on attempt 3 returning 42. -/
def behC : Nat → ℚ × Except Nat Nat :=
  fun attempt => (1, if attempt ≤ 2 then .error attempt else .ok 42)

/-- Always-failing operation (Scenario D), raising the attempt number. -/
def behD : Nat → ℚ × Except Nat Nat :=
  fun attempt => (1, .error attempt)

/-- Balancer over the empty registry. -/
def balEmpty : AdaptiveLoadBalancer :=
  { distribution := DistributionSystem.init, feedback_history := [] }

set_option maxHeartbeats 3200000 in
/-- C3: the retry loop runs at most `MaxRetries = 3` attempts with
backoff delays `min(1s·2^(a−1), 30s)` between failed attempts — so the
observed delay list is always a prefix of `[1, 2]`; a failed node
selection aborts the whole call immediately with the no-available-node
error, adding no feedback and no delay; an operation failing on attempts
1–2 and succeeding on attempt 3 yields the success result, exactly two
delays of 1 s and 2 s, and three feedback records (two failures then one
success); an always-failing operation exhausts the three attempts and
fails with the exhaustion error carrying the last (third) error, after
three failure records. -/
theorem c3_execute_with_retry_spec :
    (∀ (E R : Type) (behavior : Nat → ℚ × Except E R) (rt : RequestType)
      (p : String) (b : AdaptiveLoadBalancer) (now : ℚ),
      (b.execute_with_retry rt p behavior now).2.2.2 = [] ∨
      (b.execute_with_retry rt p behavior now).2.2.2 = [1] ∨
      (b.execute_with_retry rt p behavior now).2.2.2 = [1, 2]) ∧
    (∀ (E R : Type) (behavior : Nat → ℚ × Except E R) (rt : RequestType)
      (p : String) (remaining attempt : Nat) (b : AdaptiveLoadBalancer)
      (now : ℚ) (le : Option E) (ds : List ℚ),
      (b.select_node rt p now).1 = none →
      AdaptiveLoadBalancer.retryAux behavior rt p (remaining + 1) attempt
        b now le ds =
        (.error .noAvailableNode, (b.select_node rt p now).2, now, ds)) ∧
    ((balA.execute_with_retry .IMAGE_ANALYSIS "MEDIUM" behC 0).1 =
        .ok 42 ∧
      (balA.execute_with_retry .IMAGE_ANALYSIS "MEDIUM" behC 0).2.2.2 =
        [1, 2] ∧
      (balA.execute_with_retry .IMAGE_ANALYSIS "MEDIUM"
          behC 0).2.1.feedback_history.map
          (fun f => (f.success, f.node_id)) =
        [(false, "minespotai-1"), (false, "minespotai-1"),
          (true, "minespotai-1")]) ∧
    ((balA.execute_with_retry .IMAGE_ANALYSIS "MEDIUM" behD 0).1 =
        .error (.allRetriesExhausted (some 3)) ∧
      (balA.execute_with_retry .IMAGE_ANALYSIS "MEDIUM" behD 0).2.2.2 =
        [1, 2] ∧
      (balA.execute_with_retry .IMAGE_ANALYSIS "MEDIUM"
          behD 0).2.1.feedback_history.map
          (fun f => (f.success, f.node_id)) =
        [(false, "minespotai-1"), (false, "minespotai-1"),
          (false, "minespotai-1")]) ∧
    ((balEmpty.execute_with_retry .IMAGE_ANALYSIS "MEDIUM" behD 0).1 =
        .error .noAvailableNode ∧
      (balEmpty.execute_with_retry .IMAGE_ANALYSIS "MEDIUM"
          behD 0).2.1.feedback_history = [] ∧
      (balEmpty.execute_with_retry .IMAGE_ANALYSIS "MEDIUM"
          behD 0).2.2.2 = []) := by
  refine ⟨?_, ?_, ?_, ?_, ?_⟩
  · intro E R behavior rt p b now
    unfold AdaptiveLoadBalancer.execute_with_retry
    refine retryAux_delays_cps behavior rt p MAX_RETRIES 1 b now none []
      (fun l => l = [] ∨ l = [1] ∨ l = [1, 2]) ?_
    intro k hk
    have hm : MAX_RETRIES = 3 := rfl
    rw [hm] at hk
    interval_cases k <;>
      norm_num [RETRY_BASE_DELAY, RETRY_MAX_DELAY, List.range_succ,
        min_def]
  · intro E R behavior rt p remaining attempt b now le ds hsel
    unfold AdaptiveLoadBalancer.retryAux
    rcases hpair : b.select_node rt p now with ⟨ro, b1⟩
    rw [hpair] at hsel
    cases ro with
    | some r => exact absurd hsel (by simp)
    | none => simp
  · refine ⟨?_, ?_, ?_⟩ <;>
      norm_num +decide [AdaptiveLoadBalancer.execute_with_retry,
        AdaptiveLoadBalancer.retryAux, AdaptiveLoadBalancer.select_node,
        AdaptiveLoadBalancer.record_feedback,
        AdaptiveLoadBalancer.release_node,
        DistributionSystem.report_failure,
        DistributionSystem.report_success,
        DistributionSystem.route_request, DistributionSystem.routeFresh,
        DistributionSystem.findNode, updateNode,
        DistributionSystem.register_node, DistributionSystem.init, sysA,
        balA, nodeA, behC, ServerNode.is_available, minByLoad,
        priorityTimeout, PRIORITY_TIMEOUTS, dictInsert, cache_ttl,
        default_service_routing, CIRCUIT_RECOVERY_TIMEOUT,
        CIRCUIT_FAILURE_THRESHOLD, MAX_RETRIES, RETRY_BASE_DELAY,
        RETRY_MAX_DELAY, learning_rate, List.lookup, min_def]
  · refine ⟨?_, ?_, ?_⟩ <;>
      norm_num +decide [AdaptiveLoadBalancer.execute_with_retry,
        AdaptiveLoadBalancer.retryAux, AdaptiveLoadBalancer.select_node,
        AdaptiveLoadBalancer.record_feedback,
        AdaptiveLoadBalancer.release_node,
        DistributionSystem.report_failure,
        DistributionSystem.report_success,
        DistributionSystem.route_request, DistributionSystem.routeFresh,
        DistributionSystem.findNode, updateNode,
        DistributionSystem.register_node, DistributionSystem.init, sysA,
        balA, nodeA, behD, ServerNode.is_available, minByLoad,
        priorityTimeout, PRIORITY_TIMEOUTS, dictInsert, cache_ttl,
        default_service_routing, CIRCUIT_RECOVERY_TIMEOUT,
        CIRCUIT_FAILURE_THRESHOLD, MAX_RETRIES, RETRY_BASE_DELAY,
        RETRY_MAX_DELAY, learning_rate, List.lookup, min_def]
  · refine ⟨?_, ?_, ?_⟩ <;>
      norm_num +decide [AdaptiveLoadBalancer.execute_with_retry,
        AdaptiveLoadBalancer.retryAux, AdaptiveLoadBalancer.select_node,
        DistributionSystem.route_request, DistributionSystem.routeFresh,
        DistributionSystem.init, balEmpty, behD, minByLoad,
        priorityTimeout, PRIORITY_TIMEOUTS, dictInsert, cache_ttl,
        default_service_routing, MAX_RETRIES, List.lookup]

/-- Witness for C3's hypothesis-bearing conjunct: on the empty registry
node selection fails and the retry loop aborts immediately with the
no-available-node error, recording nothing and sleeping never. -/
theorem c3_witness :
    AdaptiveLoadBalancer.retryAux behD .IMAGE_ANALYSIS "MEDIUM" (2 + 1) 1
      balEmpty 0 none [] =
      (.error .noAvailableNode,
        (balEmpty.select_node .IMAGE_ANALYSIS "MEDIUM" 0).2, 0, []) :=
  c3_execute_with_retry_spec.2.1 Nat Nat behD .IMAGE_ANALYSIS "MEDIUM" 2
    1 balEmpty 0 none []
    (by norm_num +decide [AdaptiveLoadBalancer.select_node,
      DistributionSystem.route_request, DistributionSystem.routeFresh,
      DistributionSystem.init, balEmpty, minByLoad, priorityTimeout,
      PRIORITY_TIMEOUTS, dictInsert, cache_ttl, default_service_routing,
      List.lookup])

end AlertFlow
